import Mathlib

/-!
Shallow embedding of the backtesting core of the FYP repository
(order_simulator.py, position_manager.py, cost_calculator.py,
pnl_tracker.py, performance_analyzer.py, the run_backtest loop of
main.py, and the per-session signal state machines of
opening_momentum_strategy.py and momentum_breakout_strategy.py).

Prices and cash are modelled as rationals; Python ints as ℤ.
Random draws of the order simulator (the uniform used by the
partial-fill branch and the Boolean outcome of the probability test)
are passed in explicitly as oracle inputs.
-/

namespace FYP

/-- Python int() applied to a rational: truncation toward zero. -/
def pyInt (x : ℚ) : ℤ := if x < 0 then ⌈x⌉ else ⌊x⌋

/-- Order side, the BUY / SELL tag stored in an order result dict. -/
inductive Side where
  | buy
  | sell
deriving DecidableEq, Repr

/-- One row of the 1-minute dataframe, merged with the Signal column the
strategy wrote into its copy (df_with_signals shares the index and Close
column of df_1min in main.py). -/
structure Bar where
  ts : ℕ
  close : ℚ
  bid : ℚ
  ask : ℚ
  signal : ℤ
deriving DecidableEq, Repr

/-- OrderConfig: only slippage_pct matters once the random draws are made
explicit (partial_fill_prob only gates the draw that we pass in as a Bool). -/
structure OrderConfig where
  slippage_pct : ℚ
deriving DecidableEq, Repr

/-- The order-result dict returned by OrderSimulator.simulate_order. -/
structure Fill where
  signal_time : ℕ
  execution_time : ℕ
  signal_type : Side
  base_price : ℚ
  execution_price : ℚ
  slippage : ℚ
  requested_shares : ℤ
  filled_shares : ℤ
  total_value : ℚ
deriving DecidableEq, Repr

/-- OrderSimulator.simulate_order.  `fillBranch` is the outcome of
`np.random.random() < partial_fill_prob` and `u` the value drawn by
`np.random.uniform(0.5, 0.9)`; both are oracle inputs. -/
def simulate_order (df_1m : List Bar) (cfg : OrderConfig) (signal_time : ℕ)
    (signal_type : ℤ) (shares : ℤ) (fillBranch : Bool) (u : ℚ) : Option Fill :=
  match df_1m.filter (fun b => signal_time < b.ts) with
  | [] => none
  | next_bar :: _ =>
    let base_price := if signal_type = 1 then next_bar.ask else next_bar.bid
    let slippage := base_price * cfg.slippage_pct * (if signal_type = 1 then 1 else -1)
    let execution_price := base_price + slippage
    let filled_shares := if fillBranch then pyInt ((shares : ℚ) * u) else shares
    some { signal_time := signal_time
           execution_time := next_bar.ts
           signal_type := if signal_type = 1 then Side.buy else Side.sell
           base_price := base_price
           execution_price := execution_price
           slippage := slippage
           requested_shares := shares
           filled_shares := filled_shares
           total_value := execution_price * (filled_shares : ℚ) }

/-- position_type of PositionConfig. -/
inductive PositionType where
  | fixed_shares
  | fixed_capital
deriving DecidableEq, Repr

/-- PositionConfig. -/
structure PositionConfig where
  position_type : PositionType
  fixed_shares : ℤ
  capital_pct : ℚ
  initial_capital : ℚ
deriving DecidableEq, Repr

/-- One entry of PositionManager.positions_history. -/
structure PosSnapshot where
  time : ℕ
  action : Side
  shares : ℤ
  cash : ℚ
  avg_cost : ℚ
deriving DecidableEq, Repr

/-- The mutable state of PositionManager. -/
structure PositionManager where
  cash : ℚ
  shares : ℤ
  avg_cost : ℚ
  positions_history : List PosSnapshot
deriving DecidableEq, Repr

/-- Fresh PositionManager, as built in __init__. -/
def initPosition (cfg : PositionConfig) : PositionManager :=
  { cash := cfg.initial_capital, shares := 0, avg_cost := 0, positions_history := [] }

/-- PositionManager.calculate_position_size. -/
def calculate_position_size (cfg : PositionConfig) (pm : PositionManager)
    (price : ℚ) (signal_type : ℤ) : ℤ :=
  if signal_type = 1 then
    match cfg.position_type with
    | PositionType.fixed_shares => cfg.fixed_shares
    | PositionType.fixed_capital => pyInt (pm.cash * cfg.capital_pct / price)
  else
    pm.shares

/-- PositionManager.update_position. -/
def update_position (pm : PositionManager) (order_result : Fill)
    (commission : ℚ) : PositionManager :=
  if order_result.signal_type = Side.buy then
    let cost := order_result.execution_price * (order_result.filled_shares : ℚ) + commission
    let cash := pm.cash - cost
    let total_cost := pm.avg_cost * (pm.shares : ℚ)
        + order_result.execution_price * (order_result.filled_shares : ℚ)
    let shares := pm.shares + order_result.filled_shares
    let avg_cost := if 0 < shares then total_cost / (shares : ℚ) else 0
    { cash := cash, shares := shares, avg_cost := avg_cost
      positions_history := pm.positions_history ++
        [{ time := order_result.execution_time, action := order_result.signal_type
           shares := shares, cash := cash, avg_cost := avg_cost }] }
  else
    let proceeds := order_result.execution_price * (order_result.filled_shares : ℚ) - commission
    let cash := pm.cash + proceeds
    let shares := pm.shares - order_result.filled_shares
    let avg_cost := if shares = 0 then 0 else pm.avg_cost
    { cash := cash, shares := shares, avg_cost := avg_cost
      positions_history := pm.positions_history ++
        [{ time := order_result.execution_time, action := order_result.signal_type
           shares := shares, cash := cash, avg_cost := avg_cost }] }

/-- PositionManager.get_equity. -/
def get_equity (pm : PositionManager) (current_price : ℚ) : ℚ :=
  pm.cash + (pm.shares : ℚ) * current_price

/-- commission_type of CostConfig. -/
inductive CommissionType where
  | fixed
  | percentage
deriving DecidableEq, Repr

/-- CostConfig. -/
structure CostConfig where
  commission_type : CommissionType
  commission_fixed : ℚ
  commission_pct : ℚ
deriving DecidableEq, Repr

/-- CostCalculator.calculate_commission. -/
def calculate_commission (cfg : CostConfig) (order_value : ℚ) : ℚ :=
  match cfg.commission_type with
  | CommissionType.fixed => cfg.commission_fixed
  | CommissionType.percentage => order_value * cfg.commission_pct

/-- CostCalculator.calculate_spread_cost. -/
def calculate_spread_cost (bid ask : ℚ) (shares : ℤ) : ℚ :=
  (ask - bid) * (shares : ℚ)

/-- The cost dict returned by CostCalculator.calculate_total_cost. -/
structure Costs where
  commission : ℚ
  slippage_cost : ℚ
  spread_cost : ℚ
  total_cost : ℚ
deriving DecidableEq, Repr

/-- CostCalculator.calculate_total_cost (note: total_cost excludes the
spread cost, exactly as in the source). -/
def calculate_total_cost (cfg : CostConfig) (order_result : Fill)
    (bid ask : ℚ) : Costs :=
  let commission := calculate_commission cfg order_result.total_value
  let slippage_cost := |order_result.slippage| * (order_result.filled_shares : ℚ)
  let spread_cost := calculate_spread_cost bid ask order_result.filled_shares
  { commission := commission, slippage_cost := slippage_cost
    spread_cost := spread_cost, total_cost := commission + slippage_cost }

/-- One trade dict appended by PnLTracker.record_trade.  The PnL fields
are present only on a SELL that was passed a truthy entry price, so they
are Options here. -/
structure TradeRecord where
  trade_id : ℕ
  execution_time : ℕ
  signal_type : Side
  execution_price : ℚ
  filled_shares : ℤ
  total_value : ℚ
  commission : ℚ
  slippage_cost : ℚ
  total_cost : ℚ
  entry_price : Option ℚ
  gross_pnl : Option ℚ
  net_pnl : Option ℚ
deriving DecidableEq, Repr

/-- PnLTracker state. -/
structure PnLTracker where
  trades : List TradeRecord
  realized_pnl : ℚ
  trade_count : ℕ
deriving DecidableEq, Repr

def initTracker : PnLTracker := { trades := [], realized_pnl := 0, trade_count := 0 }

/-- PnLTracker.record_trade.  The Python guard is
`if signal_type == SELL and entry_price:` so an entry price of None or
of exactly 0.0 records no PnL fields. -/
def record_trade (t : PnLTracker) (order_result : Fill) (costs : Costs)
    (entry_price : Option ℚ) : PnLTracker :=
  let base : TradeRecord :=
    { trade_id := t.trade_count
      execution_time := order_result.execution_time
      signal_type := order_result.signal_type
      execution_price := order_result.execution_price
      filled_shares := order_result.filled_shares
      total_value := order_result.total_value
      commission := costs.commission
      slippage_cost := costs.slippage_cost
      total_cost := costs.total_cost
      entry_price := none, gross_pnl := none, net_pnl := none }
  match order_result.signal_type, entry_price with
  | Side.sell, some e =>
    if e ≠ 0 then
      let gross_pnl := (order_result.execution_price - e) * (order_result.filled_shares : ℚ)
      let net_pnl := gross_pnl - costs.total_cost
      { trades := t.trades ++
          [{ base with
              entry_price := some e
              gross_pnl := some gross_pnl
              net_pnl := some net_pnl }]
        realized_pnl := t.realized_pnl + net_pnl
        trade_count := t.trade_count + 1 }
    else
      { trades := t.trades ++ [base], realized_pnl := t.realized_pnl
        trade_count := t.trade_count + 1 }
  | _, _ =>
    { trades := t.trades ++ [base], realized_pnl := t.realized_pnl
      trade_count := t.trade_count + 1 }

/-- One point appended by PerformanceAnalyzer.update_equity. -/
structure EquityPoint where
  ts : ℕ
  equity : ℚ
  returns : ℚ
deriving DecidableEq, Repr

/-- PerformanceAnalyzer.update_equity. -/
def update_equity (initial_capital : ℚ) (curve : List EquityPoint)
    (ts : ℕ) (equity : ℚ) : List EquityPoint :=
  curve ++ [{ ts := ts, equity := equity
              returns := if 0 < initial_capital then equity / initial_capital - 1 else 0 }]

/-- The state threaded through the Step-5 loop of run_backtest in main.py. -/
structure LoopState where
  pm : PositionManager
  tracker : PnLTracker
  equity_curve : List EquityPoint
  entry_price : Option ℚ
deriving DecidableEq, Repr

/-- The `df_1m.loc[execution_time, ...]` lookup used for the bid/ask at
the execution bar. -/
def lookupBar (df : List Bar) (t : ℕ) : Option Bar :=
  df.find? (fun b => b.ts = t)

/-- One iteration of the `for signal_time in signal_times` loop of
run_backtest.  `draw` carries the two random numbers consumed by the
order simulator at this event.  The two `none` fallthroughs are
unreachable on data produced by the simulator itself (the execution
time is the timestamp of a bar of df_1m). -/
def loopStep (df_1m : List Bar) (ocfg : OrderConfig) (ccfg : CostConfig)
    (pcfg : PositionConfig) (st : LoopState) (ev : Bar)
    (draw : Bool × ℚ) : LoopState :=
  let equity := get_equity st.pm ev.close
  let st1 : LoopState :=
    { st with equity_curve := update_equity pcfg.initial_capital st.equity_curve ev.ts equity }
  let shares := calculate_position_size pcfg st1.pm ev.close ev.signal
  if shares = 0 then st1
  else
    match simulate_order df_1m ocfg ev.ts ev.signal shares draw.1 draw.2 with
    | none => st1
    | some order_result =>
      match lookupBar df_1m order_result.execution_time with
      | none => st1
      | some xb =>
        let costs := calculate_total_cost ccfg order_result xb.bid xb.ask
        let pm := update_position st1.pm order_result costs.commission
        if ev.signal = 1 then
          { st1 with
              pm := pm
              tracker := record_trade st1.tracker order_result costs none
              entry_price := some order_result.execution_price }
        else
          { st1 with
              pm := pm
              tracker := record_trade st1.tracker order_result costs st1.entry_price
              entry_price := none }

/-- Fold of loopStep over the enumerated non-zero-signal events. -/
def runEvents (df_1m : List Bar) (ocfg : OrderConfig) (ccfg : CostConfig)
    (pcfg : PositionConfig) (draws : ℕ → Bool × ℚ)
    (st : LoopState) (events : List (ℕ × Bar)) : LoopState :=
  events.foldl (fun s ie => loopStep df_1m ocfg ccfg pcfg s ie.2 (draws ie.1)) st

/-- Initial loop state of run_backtest. -/
def initState (pcfg : PositionConfig) : LoopState :=
  { pm := initPosition pcfg, tracker := initTracker
    equity_curve := [], entry_price := none }

/-- The Step-5 core of run_backtest: iterate over the bars whose Signal
is non-zero, then append the final equity point at the last bar of the
series.  (On an empty series the Python code would already have raised
while printing the date range; the empty case is returned unchanged.) -/
def run_backtest (df : List Bar) (ocfg : OrderConfig) (ccfg : CostConfig)
    (pcfg : PositionConfig) (draws : ℕ → Bool × ℚ) : LoopState :=
  let events := (df.filter (fun b => b.signal ≠ 0)).enum
  let st := runEvents df ocfg ccfg pcfg draws (initState pcfg) events
  match df.getLast? with
  | none => st
  | some lb =>
    { st with equity_curve :=
        update_equity pcfg.initial_capital st.equity_curve lb.ts (get_equity st.pm lb.close) }

/-- The ledger invariant the spec claims: no shorting and zero average
cost on an empty position. -/
def LedgerInv (pm : PositionManager) : Prop :=
  0 ≤ pm.shares ∧ (pm.shares = 0 → pm.avg_cost = 0)

instance : DecidablePred LedgerInv := fun pm => by
  unfold LedgerInv
  infer_instance

/-- Every Buy request sized along the actual trace of the loop is
nonnegative (Sell requests are sized by the ledger itself). -/
def runSafe (df : List Bar) (ocfg : OrderConfig) (ccfg : CostConfig)
    (pcfg : PositionConfig) (draws : ℕ → Bool × ℚ) :
    LoopState → List (ℕ × Bar) → Bool
  | _, [] => true
  | st, (i, ev) :: rest =>
    (decide (ev.signal ≠ 1)
      || decide (0 ≤ calculate_position_size pcfg st.pm ev.close ev.signal))
    && runSafe df ocfg ccfg pcfg draws (loopStep df ocfg ccfg pcfg st ev (draws i)) rest

/-- All intermediate states of the loop, initial state included. -/
def loopStates (df : List Bar) (ocfg : OrderConfig) (ccfg : CostConfig)
    (pcfg : PositionConfig) (draws : ℕ → Bool × ℚ) :
    LoopState → List (ℕ × Bar) → List LoopState
  | st, [] => [st]
  | st, (i, ev) :: rest =>
    st :: loopStates df ocfg ccfg pcfg draws (loopStep df ocfg ccfg pcfg st ev (draws i)) rest

/-- The real-valued primitives used by PerformanceAnalyzer that have no
exact rational counterpart: np.sqrt(252), the pandas Series.std sample
standard deviation (a square root of the sample variance), the
fractional power of the annualized return, and the timedelta .days
conversion of a timestamp.  They are passed abstractly; theorems
constrain stdev only through its branch test against zero. -/
structure RealFns where
  sqrt252 : ℚ
  stdev : List ℚ → ℚ
  powr : ℚ → ℚ → ℚ
  dayOf : ℕ → ℕ

/-- pandas Series.mean. -/
def pdMean (xs : List ℚ) : ℚ := xs.sum / (xs.length : ℚ)

/-- pandas Series.pct_change followed by dropna: elementwise
(x_i − x_(i−1)) / x_(i−1), the always-NaN first entry dropped. -/
def pctChange (xs : List ℚ) : List ℚ :=
  (xs.zip xs.tail).map (fun p => (p.2 - p.1) / p.1)

/-- pandas Series.cummax, given the first element as seed. -/
def cummaxAux : ℚ → List ℚ → List ℚ
  | _, [] => []
  | m, x :: rest => max m x :: cummaxAux (max m x) rest

def cummax : List ℚ → List ℚ
  | [] => []
  | x :: rest => x :: cummaxAux x rest

/-- pandas Series.min of a nonempty list (0 on the empty list, which
calculate_metrics never feeds it). -/
def listMin : List ℚ → ℚ
  | [] => 0
  | x :: rest => rest.foldl min x

/-- Closing trades: the rows of the trades dataframe with signal_type SELL. -/
def closedTrades (trades : List TradeRecord) : List TradeRecord :=
  trades.filter (fun t => t.signal_type = Side.sell)

/-- Rows with net_pnl > 0 (a missing net_pnl is NaN in pandas and the
comparison is False). -/
def winningTrades (trades : List TradeRecord) : List TradeRecord :=
  trades.filter (fun t => match t.net_pnl with
    | some v => decide (0 < v)
    | none => false)

/-- Rows with net_pnl < 0. -/
def losingTrades (trades : List TradeRecord) : List TradeRecord :=
  trades.filter (fun t => match t.net_pnl with
    | some v => decide (v < 0)
    | none => false)

/-- avg_win of the trade-statistics block of calculate_metrics. -/
def avgWin (closed : List TradeRecord) : ℚ :=
  if 0 < (winningTrades closed).length then
    pdMean ((winningTrades closed).filterMap (fun t => t.net_pnl))
  else 0

/-- avg_loss of the trade-statistics block: the absolute mean of the
losing net PnLs, BUT the literal constant 1 when there is no losing
trade (the `else 1` of the source). -/
def avgLoss (closed : List TradeRecord) : ℚ :=
  if 0 < (losingTrades closed).length then
    |pdMean ((losingTrades closed).filterMap (fun t => t.net_pnl))|
  else 1

/-- The (win_rate, profit_factor) pair computed by the trade-statistics
block of calculate_metrics.  The outer test mirrors
`if not trades_df.empty and 'net_pnl' in trades_df.columns:` — the
column exists exactly when some record carries the key. -/
def tradeStats (trades : List TradeRecord) : ℚ × ℚ :=
  if 0 < trades.length ∧ trades.any (fun t => t.net_pnl.isSome) then
    let closed := closedTrades trades
    if 0 < closed.length then
      let win_rate := ((winningTrades closed).length : ℚ) / (closed.length : ℚ) * 100
      let profit_factor := if 0 < avgLoss closed then avgWin closed / avgLoss closed else 0
      (win_rate, profit_factor)
    else (0, 0)
  else (0, 0)

/-- The metrics dict returned by PerformanceAnalyzer.calculate_metrics. -/
structure Metrics where
  initial_capital : ℚ
  final_equity : ℚ
  total_return_pct : ℚ
  annual_return_pct : ℚ
  max_drawdown_pct : ℚ
  sharpe_ratio : ℚ
  sortino_ratio : ℚ
  win_rate_pct : ℚ
  profit_factor : ℚ
  total_trades : ℕ
  days : ℕ
deriving DecidableEq, Repr

/-- PerformanceAnalyzer.calculate_metrics.  Returns none (the empty
dict) when the equity curve is empty. -/
def calculate_metrics (F : RealFns) (initial_capital : ℚ)
    (equity_curve : List EquityPoint) (trades : List TradeRecord) : Option Metrics :=
  match equity_curve with
  | [] => none
  | e0 :: _ =>
    let lastPt := equity_curve.getLast?.getD e0
    let final_equity := lastPt.equity
    let total_return := (final_equity / initial_capital - 1) * 100
    let days := F.dayOf lastPt.ts - F.dayOf e0.ts
    let years : ℚ := if 0 < days then (days : ℚ) / 252 else 1
    let annual_return :=
      if 0 < years then (F.powr (final_equity / initial_capital) (1 / years) - 1) * 100 else 0
    let eqs := equity_curve.map (fun e => e.equity)
    let drawdowns := (eqs.zip (cummax eqs)).map (fun p => (p.1 - p.2) / p.2)
    let max_drawdown := listMin drawdowns * 100
    let rets := pctChange (equity_curve.map (fun e => e.returns))
    let sharpe_ratio :=
      if 0 < rets.length ∧ 0 < F.stdev rets then
        pdMean rets / F.stdev rets * F.sqrt252
      else 0
    let negs := rets.filter (fun r => r < 0)
    let sortino_ratio :=
      if 0 < negs.length ∧ 0 < F.stdev negs then
        pdMean rets / F.stdev negs * F.sqrt252
      else 0
    let stats := tradeStats trades
    some { initial_capital := initial_capital
           final_equity := final_equity
           total_return_pct := total_return
           annual_return_pct := annual_return
           max_drawdown_pct := max_drawdown
           sharpe_ratio := sharpe_ratio
           sortino_ratio := sortino_ratio
           win_rate_pct := stats.1
           profit_factor := stats.2
           total_trades := trades.length
           days := days }

end FYP

namespace FYP.OM

/-- Parameters of OpeningMomentumStrategy. -/
structure Params where
  opening_range_minutes : ℕ
  volume_threshold : ℚ
  breakout_threshold : ℚ
  profit_target_pct : ℚ
  stop_loss_pct : ℚ
deriving DecidableEq, Repr

/-- One bar as seen by the per-day loop of
OpeningMomentumStrategy.calculate_signals; avgVolume is the
rolling-mean AvgVolume column, precomputed over the whole series
(min_periods=1, so never NaN). -/
structure OBar where
  ts : ℕ
  high : ℚ
  low : ℚ
  close : ℚ
  volume : ℚ
  avgVolume : ℚ
deriving DecidableEq, Repr

/-- The instance state of the strategy: in_position and entry_price. -/
structure SState where
  in_position : Bool
  entry_price : ℚ
deriving DecidableEq, Repr

/-- Both state fields as freshly constructed. -/
def flat : SState := { in_position := false, entry_price := 0 }

/-- The body of the bar loop over day_indices[opening_range_minutes:],
returning the updated state and the Signal written at this bar. -/
def processBar (p : Params) (opening_high opening_low : ℚ)
    (st : SState) (b : OBar) : SState × ℤ :=
  if st.in_position then
    if b.low ≤ st.entry_price * (1 - p.stop_loss_pct) then (flat, -1)
    else if st.entry_price * (1 + p.profit_target_pct) ≤ b.high then (flat, -1)
    else if b.low < opening_low then (flat, -1)
    else (st, 0)
  else
    if b.avgVolume * p.volume_threshold < b.volume
        ∧ opening_high * (1 + p.breakout_threshold) < b.close then
      ({ in_position := true, entry_price := b.close }, 1)
    else (st, 0)

/-- Fold of processBar, collecting the per-bar signals in order. -/
def processBars (p : Params) (oh ol : ℚ) : SState → List OBar → SState × List ℤ
  | st, [] => (st, [])
  | st, b :: rest =>
    let r := processBar p oh ol st b
    let rr := processBars p oh ol r.1 rest
    (rr.1, r.2 :: rr.2)

/-- opening_data['High'].max() over the nonempty opening range. -/
def openingHigh : List OBar → ℚ
  | [] => 0
  | b :: rest => (rest.map (fun x => x.high)).foldl max b.high

/-- opening_data['Low'].min() over the nonempty opening range. -/
def openingLow : List OBar → ℚ
  | [] => 0
  | b :: rest => (rest.map (fun x => x.low)).foldl min b.low

/-- The end-of-day block: overwrite the Signal at the last bar with the
closing direction, but only when that Signal is still 0. -/
def forceCloseSigs (sigs : List ℤ) (dir : ℤ) : List ℤ :=
  match sigs.getLast? with
  | none => sigs
  | some s => if s = 0 then sigs.dropLast ++ [dir] else sigs

/-- The per-day computation before the end-of-day block: opening range
from the first opening_range_minutes bars, then the bar loop over the
rest; opening-range bars keep Signal 0. -/
def processDayCore (p : Params) (st : SState) (day : List OBar) : SState × List ℤ :=
  let opening := day.take p.opening_range_minutes
  let r := processBars p (openingHigh opening) (openingLow opening) st
    (day.drop p.opening_range_minutes)
  (r.1, List.replicate opening.length 0 ++ r.2)

/-- One iteration of the groupby-date loop of calculate_signals: days
shorter than the opening range are skipped (state untouched, all
signals 0); otherwise the core runs and, if still in position at the
end, the closing signal is forced at the last bar (only if that bar
still carries 0) and the state resets. -/
def processDay (p : Params) (st : SState) (day : List OBar) : SState × List ℤ :=
  if day.length < p.opening_range_minutes then (st, List.replicate day.length 0)
  else
    let r := processDayCore p st day
    if r.1.in_position ∧ 0 < day.length then (flat, forceCloseSigs r.2 (-1))
    else r

/-- calculate_signals over the date-grouped series: fold of processDay,
collecting the per-day signal lists. -/
def calcSignals (p : Params) : SState → List (List OBar) → SState × List (List ℤ)
  | st, [] => (st, [])
  | st, day :: days =>
    let r := processDay p st day
    let rr := calcSignals p r.1 days
    (rr.1, r.2 :: rr.2)

end FYP.OM

namespace FYP.MB

/-- Parameters of MomentumBreakoutStrategy. -/
structure Params where
  lookback_period : ℕ
  momentum_threshold : ℚ
  volume_multiplier : ℚ
  profit_target_pct : ℚ
  stop_loss_pct : ℚ
deriving DecidableEq, Repr

/-- One bar as seen by MomentumBreakoutStrategy.calculate_signals.
momentum is none while the lookback shift is still NaN; time_ok is the
TimeFilter column; avg_volume uses min_periods=1 and is never NaN. -/
structure MBar where
  ts : ℕ
  high : ℚ
  low : ℚ
  close : ℚ
  volume : ℚ
  avg_volume : ℚ
  momentum : Option ℚ
  time_ok : Bool
deriving DecidableEq, Repr

/-- Instance state: in_position, entry_price, position_type (1 long,
-1 short, 0 flat). -/
structure SState where
  in_position : Bool
  entry_price : ℚ
  position_type : ℤ
deriving DecidableEq, Repr

def flat : SState := { in_position := false, entry_price := 0, position_type := 0 }

/-- The body of the bar loop: NaN momentum or a filtered time slot is
skipped (state untouched, Signal stays 0). -/
def processBar (p : Params) (st : SState) (b : MBar) : SState × ℤ :=
  match b.momentum, b.time_ok with
  | none, _ => (st, 0)
  | some _, false => (st, 0)
  | some mom, true =>
    if st.in_position then
      if st.position_type = 1 then
        if b.low ≤ st.entry_price * (1 - p.stop_loss_pct) then (flat, -1)
        else if st.entry_price * (1 + p.profit_target_pct) ≤ b.high then (flat, -1)
        else if mom < -p.momentum_threshold then (flat, -1)
        else (st, 0)
      else if st.position_type = -1 then
        if st.entry_price * (1 + p.stop_loss_pct) ≤ b.high then (flat, 1)
        else if b.low ≤ st.entry_price * (1 - p.profit_target_pct) then (flat, 1)
        else if p.momentum_threshold < mom then (flat, 1)
        else (st, 0)
      else (st, 0)
    else
      if p.momentum_threshold < mom ∧ b.avg_volume * p.volume_multiplier < b.volume then
        ({ in_position := true, entry_price := b.close, position_type := 1 }, 1)
      else if mom < -p.momentum_threshold ∧ b.avg_volume * p.volume_multiplier < b.volume then
        ({ in_position := true, entry_price := b.close, position_type := -1 }, -1)
      else (st, 0)

/-- Fold of processBar over a whole day. -/
def processBars (p : Params) : SState → List MBar → SState × List ℤ
  | st, [] => (st, [])
  | st, b :: rest =>
    let r := processBar p st b
    let rr := processBars p r.1 rest
    (rr.1, r.2 :: rr.2)

/-- One iteration of the groupby-date loop: days shorter than
lookback_period + 5 are skipped; otherwise the bar loop runs and, if
still in position at the end, the opposite-direction signal is forced
at the last bar (only if it still carries 0) and the state resets. -/
def processDay (p : Params) (st : SState) (day : List MBar) : SState × List ℤ :=
  if day.length < p.lookback_period + 5 then (st, List.replicate day.length 0)
  else
    let r := processBars p st day
    if r.1.in_position ∧ 0 < day.length then
      (flat, FYP.OM.forceCloseSigs r.2 (if r.1.position_type = 1 then -1 else 1))
    else r

/-- calculate_signals over the date-grouped series. -/
def calcSignals (p : Params) : SState → List (List MBar) → SState × List (List ℤ)
  | st, [] => (st, [])
  | st, day :: days =>
    let r := processDay p st day
    let rr := calcSignals p r.1 days
    (rr.1, r.2 :: rr.2)

end FYP.MB

namespace FYP

theorem record_trade_length (t : PnLTracker) (f : Fill) (costs : Costs)
    (e : Option ℚ) : (record_trade t f costs e).trades.length = t.trades.length + 1 := by
  unfold record_trade
  rcases f.signal_type with _ | _ <;> rcases e with _ | ep <;> dsimp only <;>
    (try split_ifs) <;> simp

theorem update_position_cash_zero_fill (pm : PositionManager) (f : Fill) (c : ℚ)
    (hz : f.filled_shares = 0) : (update_position pm f c).cash = pm.cash - c := by
  unfold update_position
  by_cases hb : f.signal_type = Side.buy <;> simp [hb, hz] <;> ring

/-- Claim C1: simulate_order looks for the first bar of the 1-minute
series whose timestamp is strictly greater than the decision timestamp:
if none exists it returns none (order dropped, no error), otherwise it
returns a fill whose execution_time is the timestamp of that first bar,
hence strictly after the decision time. -/
theorem simulate_order_next_bar (df : List Bar) (cfg : OrderConfig) (t : ℕ)
    (sig : ℤ) (shares : ℤ) (fb : Bool) (u : ℚ) :
    (df.filter (fun b => t < b.ts) = [] →
      simulate_order df cfg t sig shares fb u = none)
    ∧ ∀ b l, df.filter (fun x => t < x.ts) = b :: l →
        (simulate_order df cfg t sig shares fb u).isSome = true
        ∧ ∀ f, simulate_order df cfg t sig shares fb u = some f →
            f.execution_time = b.ts ∧ t < f.execution_time := by
  constructor
  · intro h
    simp only [simulate_order, h]
  · intro b l h
    have hb : b ∈ df.filter (fun x => t < x.ts) := h ▸ List.mem_cons_self _ _
    have hlt : t < b.ts := by simpa using List.of_mem_filter hb
    constructor
    · simp only [simulate_order, h, Option.isSome_some]
    · intro f hf
      simp only [simulate_order, h, Option.some.injEq] at hf
      subst hf
      exact ⟨rfl, hlt⟩

theorem simulate_order_next_bar_witness :
    (simulate_order [⟨5, 2, 1, 3, 0⟩] ⟨0⟩ 3 1 10 false 0).isSome = true
    ∧ ∀ f, simulate_order [⟨5, 2, 1, 3, 0⟩] ⟨0⟩ 3 1 10 false 0 = some f →
        f.execution_time = 5 ∧ 3 < f.execution_time :=
  (simulate_order_next_bar [⟨5, 2, 1, 3, 0⟩] ⟨0⟩ 3 1 10 false 0).2
    ⟨5, 2, 1, 3, 0⟩ [] (by decide)

/-- Claim C8: with nonnegative slippage the Buy execution price is the
next-bar ask times (1 + slippage_pct) and the Sell execution price is
the next-bar bid times (1 - slippage_pct); for nonnegative quoted
prices the trader never trades at a better price than the quote. -/
theorem simulate_order_adverse_price (df : List Bar) (cfg : OrderConfig) (t : ℕ)
    (shares : ℤ) (fb : Bool) (u : ℚ) (b : Bar) (l : List Bar)
    (hfil : df.filter (fun x => t < x.ts) = b :: l)
    (hs : 0 ≤ cfg.slippage_pct) :
    (∀ f, simulate_order df cfg t 1 shares fb u = some f →
        f.execution_price = b.ask * (1 + cfg.slippage_pct)
        ∧ (0 ≤ b.ask → b.ask ≤ f.execution_price))
    ∧ (∀ f, simulate_order df cfg t (-1) shares fb u = some f →
        f.execution_price = b.bid * (1 - cfg.slippage_pct)
        ∧ (0 ≤ b.bid → f.execution_price ≤ b.bid)) := by
  constructor
  · intro f hf
    simp only [simulate_order, hfil, Option.some.injEq, if_pos] at hf
    subst hf
    refine ⟨by ring, fun ha => ?_⟩
    show b.ask ≤ b.ask + b.ask * cfg.slippage_pct * 1
    nlinarith [mul_nonneg ha hs]
  · intro f hf
    have hne : ¬ ((-1 : ℤ) = 1) := by decide
    simp only [simulate_order, hfil, Option.some.injEq, if_neg hne] at hf
    subst hf
    refine ⟨by ring, fun hb2 => ?_⟩
    show b.bid + b.bid * cfg.slippage_pct * -1 ≤ b.bid
    nlinarith [mul_nonneg hb2 hs]

theorem simulate_order_adverse_price_witness :
    (∀ f, simulate_order [⟨5, 2, 1, 3, 0⟩] ⟨1/100⟩ 3 1 10 false 0 = some f →
        f.execution_price = 3 * (1 + 1/100) ∧ ((0:ℚ) ≤ 3 → 3 ≤ f.execution_price))
    ∧ ∀ f, simulate_order [⟨5, 2, 1, 3, 0⟩] ⟨1/100⟩ 3 (-1) 10 false 0 = some f →
        f.execution_price = 1 * (1 - 1/100) ∧ ((0:ℚ) ≤ 1 → f.execution_price ≤ 1) :=
  simulate_order_adverse_price [⟨5, 2, 1, 3, 0⟩] ⟨1/100⟩ 3 10 false 0
    ⟨5, 2, 1, 3, 0⟩ [] (by decide) (by norm_num)

/-- Claim C6: postcondition of update_position.  For a Buy of n shares
at price p with commission c: cash decreases by p*n + c, shares grow by
n, and the average cost becomes the volume-weighted formula.  For a
Sell: cash grows by p*n - c, shares shrink by n, and the average cost
is reset to 0 exactly when the resulting shares are 0. -/
theorem update_position_post (pm : PositionManager) (f : Fill) (c : ℚ)
    (hsh : 0 ≤ pm.shares) (hn : 0 ≤ f.filled_shares) :
    (f.signal_type = Side.buy →
      (update_position pm f c).cash
          = pm.cash - (f.execution_price * (f.filled_shares : ℚ) + c)
      ∧ (update_position pm f c).shares = pm.shares + f.filled_shares
      ∧ (update_position pm f c).avg_cost
          = (pm.avg_cost * (pm.shares : ℚ) + f.execution_price * (f.filled_shares : ℚ))
            / ((pm.shares : ℚ) + (f.filled_shares : ℚ)))
    ∧ (f.signal_type = Side.sell →
      (update_position pm f c).cash
          = pm.cash + (f.execution_price * (f.filled_shares : ℚ) - c)
      ∧ (update_position pm f c).shares = pm.shares - f.filled_shares
      ∧ ((update_position pm f c).shares = 0 → (update_position pm f c).avg_cost = 0)
      ∧ ((update_position pm f c).shares ≠ 0 →
          (update_position pm f c).avg_cost = pm.avg_cost)) := by
  constructor
  · intro hb
    refine ⟨?_, ?_, ?_⟩
    · simp only [update_position, hb, if_pos]
    · simp only [update_position, hb, if_pos]
    · simp only [update_position, hb, if_pos]
      by_cases hpos : 0 < pm.shares + f.filled_shares
      · rw [if_pos hpos]
        push_cast
        ring
      · have h1 : pm.shares = 0 := by omega
        have h2 : f.filled_shares = 0 := by omega
        rw [if_neg hpos, h1, h2]
        norm_num
  · intro hs2
    have hb : ¬ f.signal_type = Side.buy := by rw [hs2]; exact fun hh => nomatch hh
    refine ⟨?_, ?_, ?_, ?_⟩
    · simp only [update_position, if_neg hb]
    · simp only [update_position, if_neg hb]
    · intro h0
      simp only [update_position, if_neg hb] at h0 ⊢
      rw [if_pos h0]
    · intro h0
      simp only [update_position, if_neg hb] at h0 ⊢
      rw [if_neg h0]

theorem update_position_post_witness :
    (update_position ⟨1000, 10, 5, []⟩ ⟨1, 2, Side.buy, 10, 10, 0, 20, 20, 200⟩ 3).avg_cost
      = (5 * (10:ℚ) + 10 * 20) / (10 + 20) :=
  ((update_position_post ⟨1000, 10, 5, []⟩ ⟨1, 2, Side.buy, 10, 10, 0, 20, 20, 200⟩ 3
    (by decide) (by decide)).1 rfl).2.2

/-- Claim C10: when the partial-fill branch triggers with a uniform draw
u in the interval from one half up to but excluding nine tenths, the
filled share count is int(requested * u), strictly below the requested
count and equal to 0 when exactly one share was requested; and a
zero-share fill still flows through the main loop like any fill, adding
one trade record and still charging a configured fixed commission. -/
theorem fractional_fill_flow :
    (∀ (df : List Bar) (cfg : OrderConfig) (t : ℕ) (sig n : ℤ) (u : ℚ) (f : Fill),
      1 ≤ n → 1/2 ≤ u → u < 9/10 →
      simulate_order df cfg t sig n true u = some f →
        f.filled_shares = pyInt ((n : ℚ) * u)
        ∧ f.filled_shares < n
        ∧ (n = 1 → f.filled_shares = 0))
    ∧ ∀ (df : List Bar) (ocfg : OrderConfig) (ccfg : CostConfig)
        (pcfg : PositionConfig) (st : LoopState) (ev : Bar) (draw : Bool × ℚ)
        (f : Fill) (xb : Bar),
      ev.signal = 1 →
      calculate_position_size pcfg st.pm ev.close ev.signal ≠ 0 →
      simulate_order df ocfg ev.ts ev.signal
        (calculate_position_size pcfg st.pm ev.close ev.signal) draw.1 draw.2 = some f →
      f.filled_shares = 0 →
      lookupBar df f.execution_time = some xb →
      ccfg.commission_type = CommissionType.fixed →
        (loopStep df ocfg ccfg pcfg st ev draw).tracker.trades.length
            = st.tracker.trades.length + 1
        ∧ (loopStep df ocfg ccfg pcfg st ev draw).pm.cash
            = st.pm.cash - ccfg.commission_fixed := by
  constructor
  · intro df cfg t sig n u f hn h1 h2 hf
    rcases hfil : df.filter (fun x => t < x.ts) with _ | ⟨b, l⟩
    · exfalso
      simp only [simulate_order, hfil] at hf
      exact Option.noConfusion hf
    · simp only [simulate_order, hfil, Option.some.injEq] at hf
      subst hf
      have hn' : (1:ℚ) ≤ (n:ℚ) := by exact_mod_cast hn
      have hnn : (0:ℚ) ≤ (n:ℚ) * u := mul_nonneg (by linarith) (by linarith)
      have hfl : pyInt ((n:ℚ) * u) = ⌊(n:ℚ) * u⌋ := by
        simp [pyInt, not_lt.mpr hnn]
      refine ⟨rfl, ?_, ?_⟩
      · show (if true = true then pyInt ((n:ℚ) * u) else n) < n
        rw [if_pos rfl, hfl]
        refine Int.floor_lt.mpr ?_
        nlinarith [mul_lt_mul_of_pos_left h2 (show (0:ℚ) < (n:ℚ) by linarith)]
      · intro h1n
        show (if true = true then pyInt ((n:ℚ) * u) else n) = 0
        rw [if_pos rfl, hfl, h1n]
        have hcast : ((1:ℤ):ℚ) * u = u := by norm_num
        rw [hcast]
        refine Int.floor_eq_zero_iff.mpr ?_
        rw [Set.mem_Ico]
        constructor <;> linarith
  · intro df ocfg ccfg pcfg st ev draw f xb hsig hsz hsim hfz hlb hct
    have hcomm : (calculate_total_cost ccfg f xb.bid xb.ask).commission
        = ccfg.commission_fixed := by
      simp [calculate_total_cost, calculate_commission, hct]
    simp only [loopStep]
    rw [if_neg hsz, hsim]
    dsimp only
    rw [hlb]
    dsimp only
    rw [if_pos hsig]
    constructor
    · exact record_trade_length _ _ _ _
    · rw [update_position_cash_zero_fill _ _ _ hfz, hcomm]

theorem fractional_fill_flow_witness :
    ((1:ℤ) ≤ 1
      ∧ ((⟨3, 5, Side.buy, 3, 3, 0, 1, 0, 0⟩ : Fill).filled_shares = pyInt ((1 : ℚ) * (1/2))
        ∧ (⟨3, 5, Side.buy, 3, 3, 0, 1, 0, 0⟩ : Fill).filled_shares < 1
        ∧ ((1:ℤ) = 1 → (⟨3, 5, Side.buy, 3, 3, 0, 1, 0, 0⟩ : Fill).filled_shares = 0)))
    ∧ ((loopStep [⟨5, 2, 1, 3, 0⟩] ⟨0⟩ ⟨CommissionType.fixed, 7, 0⟩
          ⟨PositionType.fixed_shares, 1, 1, 100⟩
          (initState ⟨PositionType.fixed_shares, 1, 1, 100⟩)
          ⟨3, 10, 10, 10, 1⟩ (true, 1/2)).tracker.trades.length
        = (initState ⟨PositionType.fixed_shares, 1, 1, 100⟩).tracker.trades.length + 1
      ∧ (loopStep [⟨5, 2, 1, 3, 0⟩] ⟨0⟩ ⟨CommissionType.fixed, 7, 0⟩
          ⟨PositionType.fixed_shares, 1, 1, 100⟩
          (initState ⟨PositionType.fixed_shares, 1, 1, 100⟩)
          ⟨3, 10, 10, 10, 1⟩ (true, 1/2)).pm.cash
        = (initState ⟨PositionType.fixed_shares, 1, 1, 100⟩).pm.cash - 7) :=
  ⟨⟨by norm_num,
    fractional_fill_flow.1 [⟨5, 2, 1, 3, 0⟩] ⟨0⟩ 3 1 1 (1/2) ⟨3, 5, Side.buy, 3, 3, 0, 1, 0, 0⟩
      (by norm_num) (by norm_num) (by norm_num)
      (by simp [simulate_order, pyInt]; norm_num)⟩,
   fractional_fill_flow.2 [⟨5, 2, 1, 3, 0⟩] ⟨0⟩ ⟨CommissionType.fixed, 7, 0⟩
      ⟨PositionType.fixed_shares, 1, 1, 100⟩ (initState ⟨PositionType.fixed_shares, 1, 1, 100⟩)
      ⟨3, 10, 10, 10, 1⟩ (true, 1/2) ⟨3, 5, Side.buy, 3, 3, 0, 1, 0, 0⟩ ⟨5, 2, 1, 3, 0⟩
      rfl (by norm_num [calculate_position_size, initState, initPosition])
      (by norm_num [simulate_order, pyInt, calculate_position_size, initState, initPosition])
      rfl (by norm_num [lookupBar, List.find?]) rfl⟩

/-- Claim C9: with an empty equity curve, calculate_metrics returns the
empty dict for any trades input, raising no error. -/
theorem calculate_metrics_empty_curve (F : RealFns) (init : ℚ)
    (trades : List TradeRecord) : calculate_metrics F init [] trades = none := rfl

end FYP

namespace FYP

theorem ledgerInv_update (pm : PositionManager) (f : Fill) (c : ℚ)
    (hinv : LedgerInv pm) (hfs : 0 ≤ f.filled_shares)
    (hsell : f.signal_type ≠ Side.buy → f.filled_shares ≤ pm.shares) :
    LedgerInv (update_position pm f c) := by
  obtain ⟨h1, h2⟩ := hinv
  unfold update_position LedgerInv
  by_cases hb : f.signal_type = Side.buy
  · simp only [hb, if_pos]
    refine ⟨by omega, fun h0 => ?_⟩
    rw [if_neg (by omega)]
  · simp only [if_neg hb]
    have hle := hsell hb
    refine ⟨by omega, fun h0 => ?_⟩
    rw [if_pos h0]

theorem ledgerInv_loopStep (df : List Bar) (ocfg : OrderConfig) (ccfg : CostConfig)
    (pcfg : PositionConfig) (st : LoopState) (ev : Bar) (draw : Bool × ℚ)
    (hinv : LedgerInv st.pm)
    (hbuy : ev.signal = 1 → 0 ≤ calculate_position_size pcfg st.pm ev.close ev.signal)
    (hdraw : 1/2 ≤ draw.2 ∧ draw.2 < 9/10) :
    LedgerInv (loopStep df ocfg ccfg pcfg st ev draw).pm := by
  simp only [loopStep]
  by_cases hsz : calculate_position_size pcfg st.pm ev.close ev.signal = 0
  · rw [if_pos hsz]
    exact hinv
  · rw [if_neg hsz]
    set s := calculate_position_size pcfg st.pm ev.close ev.signal with hs
    have hfb : 0 ≤ s →
        (if draw.1 = true then pyInt ((s:ℚ) * draw.2) else s) ≤ s
        ∧ 0 ≤ (if draw.1 = true then pyInt ((s:ℚ) * draw.2) else s) := by
      intro hs0
      cases hd1 : draw.1
      · simp only [Bool.false_eq_true, if_neg (by simp : ¬ (false = true))]
        exact ⟨le_refl s, hs0⟩
      · simp only [if_pos rfl]
        have hsq : (0:ℚ) ≤ (s:ℚ) := by exact_mod_cast hs0
        have hun : (0:ℚ) ≤ draw.2 := by linarith [hdraw.1]
        have hprod : (0:ℚ) ≤ (s:ℚ) * draw.2 := mul_nonneg hsq hun
        have hpy : pyInt ((s:ℚ) * draw.2) = ⌊(s:ℚ) * draw.2⌋ := by
          simp [pyInt, not_lt.mpr hprod]
        rw [hpy]
        constructor
        · have hle1 : (s:ℚ) * draw.2 ≤ (s:ℚ) := by nlinarith [hdraw.2]
          have := Int.floor_le_floor hle1
          rwa [Int.floor_intCast] at this
        · exact Int.floor_nonneg.mpr hprod
    rcases hfil : df.filter (fun b => ev.ts < b.ts) with _ | ⟨b, l⟩
    · simp only [simulate_order, hfil]
      exact hinv
    · simp only [simulate_order, hfil]
      try dsimp only
      by_cases hsig : ev.signal = 1
      · simp only [hsig, if_pos]
        try dsimp only
        rcases hlb : lookupBar df b.ts with _ | xb
        · exact hinv
        · try dsimp only
          refine ledgerInv_update _ _ _ hinv ?_ ?_
          · exact (hfb (hbuy hsig)).2
          · intro hns
            exact absurd rfl hns
      · simp only [if_neg hsig]
        try dsimp only
        have hsell : s = st.pm.shares := by
          rw [hs]
          unfold calculate_position_size
          rw [if_neg hsig]
        have hs0 : 0 ≤ s := hsell ▸ hinv.1
        rcases hlb : lookupBar df b.ts with _ | xb
        · exact hinv
        · try dsimp only
          refine ledgerInv_update _ _ _ hinv ?_ ?_
          · exact (hfb hs0).2
          · intro _
            exact le_trans (hfb hs0).1 (le_of_eq hsell)

/-- Claim C7 (amended): if, in addition to the stated caveats, every Buy
request sized along the run is nonnegative and the uniform draws lie in
the interval from one half up to nine tenths, then the ledger invariant
(shares at least 0; average cost 0 whenever shares are 0) holds at every
intermediate state and at the end of the loop.  Without the
nonnegative-Buy condition the invariant can fail, see the
counterexample. -/
theorem ledger_invariant_run (df : List Bar) (ocfg : OrderConfig) (ccfg : CostConfig)
    (pcfg : PositionConfig) (draws : ℕ → Bool × ℚ) (events : List (ℕ × Bar))
    (st0 : LoopState)
    (hinv : LedgerInv st0.pm)
    (hdraw : ∀ i, 1/2 ≤ (draws i).2 ∧ (draws i).2 < 9/10)
    (hsafe : runSafe df ocfg ccfg pcfg draws st0 events = true) :
    (∀ st ∈ loopStates df ocfg ccfg pcfg draws st0 events, LedgerInv st.pm)
    ∧ LedgerInv (runEvents df ocfg ccfg pcfg draws st0 events).pm := by
  induction events generalizing st0 with
  | nil =>
    refine ⟨?_, hinv⟩
    intro st hst
    simp only [loopStates, List.mem_singleton] at hst
    subst hst
    exact hinv
  | cons ie rest ih =>
    obtain ⟨i, ev⟩ := ie
    rw [runSafe, Bool.and_eq_true] at hsafe
    have hbuy : ev.signal = 1 → 0 ≤ calculate_position_size pcfg st0.pm ev.close ev.signal := by
      intro h1
      rcases Bool.or_eq_true _ _ |>.mp hsafe.1 with hc | hc
      · exact absurd h1 (of_decide_eq_true hc)
      · exact of_decide_eq_true hc
    have hnext : LedgerInv (loopStep df ocfg ccfg pcfg st0 ev (draws i)).pm :=
      ledgerInv_loopStep df ocfg ccfg pcfg st0 ev (draws i) hinv hbuy (hdraw i)
    have hrest := ih _ hnext hsafe.2
    refine ⟨?_, ?_⟩
    · intro st hst
      simp only [loopStates, List.mem_cons] at hst
      rcases hst with h | h
      · subst h
        exact hinv
      · exact hrest.1 st h
    · exact hrest.2

theorem ledger_invariant_run_witness :
    (∀ st ∈ loopStates [⟨1,10,10,10,1⟩, ⟨2,10,10,10,0⟩] ⟨0⟩
        ⟨CommissionType.percentage, 0, 0⟩ ⟨PositionType.fixed_shares, 5, 1, 1000⟩
        (fun _ => (false, 1/2)) (initState ⟨PositionType.fixed_shares, 5, 1, 1000⟩)
        [(0, ⟨1,10,10,10,1⟩)], LedgerInv st.pm)
    ∧ LedgerInv (runEvents [⟨1,10,10,10,1⟩, ⟨2,10,10,10,0⟩] ⟨0⟩
        ⟨CommissionType.percentage, 0, 0⟩ ⟨PositionType.fixed_shares, 5, 1, 1000⟩
        (fun _ => (false, 1/2)) (initState ⟨PositionType.fixed_shares, 5, 1, 1000⟩)
        [(0, ⟨1,10,10,10,1⟩)]).pm :=
  ledger_invariant_run [⟨1,10,10,10,1⟩, ⟨2,10,10,10,0⟩] ⟨0⟩
    ⟨CommissionType.percentage, 0, 0⟩ ⟨PositionType.fixed_shares, 5, 1, 1000⟩
    (fun _ => (false, 1/2)) [(0, ⟨1,10,10,10,1⟩)]
    (initState ⟨PositionType.fixed_shares, 5, 1, 1000⟩)
    ⟨by norm_num [initState, initPosition], fun _ => by norm_num [initState, initPosition]⟩
    (fun i => ⟨by norm_num, by norm_num⟩)
    (by norm_num [runSafe, calculate_position_size, initState, initPosition])

/-- Claim C7 counterexample: a run with only Buy signals (so every Sell
caveat of the claim holds vacuously, nothing is dropped, every fill is
full) in which the ledger shares end strictly negative: once the first
Buy executes at a much higher ask than the sizing Close and drives cash
negative, the next Buy is sized negative and short-circuits the ledger
below zero. -/
theorem ledger_shares_can_go_negative :
    (run_backtest [⟨1,1,1,1,1⟩, ⟨2,1,1000,1000,0⟩, ⟨3,1,1,1,1⟩, ⟨4,1,1,1,0⟩]
        ⟨0⟩ ⟨CommissionType.percentage, 0, 0⟩ ⟨PositionType.fixed_capital, 0, 1, 100⟩
        (fun _ => (false, 0))).pm.shares < 0
    ∧ (([⟨1,1,1,1,1⟩, ⟨2,1,1000,1000,0⟩, ⟨3,1,1,1,1⟩, ⟨4,1,1,1,0⟩] : List Bar).filter
        (fun b => b.signal ≠ 0)).map (fun b => b.signal) = [1, 1] := by
  constructor
  · have hc : ⌈(-99900 : ℚ)⌉ = (-99900 : ℤ) := by
      have h2 : ((-99900 : ℤ) : ℚ) = (-99900 : ℚ) := by norm_num
      rw [← h2, Int.ceil_intCast]
    norm_num [hc, run_backtest, runEvents, loopStep, simulate_order, calculate_position_size,
      update_position, get_equity, update_equity, lookupBar, calculate_total_cost,
      calculate_commission, record_trade, pyInt, initState, initPosition, initTracker,
      List.foldl, List.filter, List.enum, List.find?]
  · rfl

theorem loopStep_equity (df : List Bar) (ocfg : OrderConfig) (ccfg : CostConfig)
    (pcfg : PositionConfig) (st : LoopState) (ev : Bar) (draw : Bool × ℚ) :
    (loopStep df ocfg ccfg pcfg st ev draw).equity_curve
      = update_equity pcfg.initial_capital st.equity_curve ev.ts (get_equity st.pm ev.close) := by
  simp only [loopStep]
  by_cases h : calculate_position_size pcfg st.pm ev.close ev.signal = 0
  · rw [if_pos h]
  · rw [if_neg h]
    split
    · rfl
    · split
      · rfl
      · split_ifs <;> rfl

theorem runEvents_equity_length (df : List Bar) (ocfg : OrderConfig) (ccfg : CostConfig)
    (pcfg : PositionConfig) (draws : ℕ → Bool × ℚ) (events : List (ℕ × Bar))
    (st : LoopState) :
    (runEvents df ocfg ccfg pcfg draws st events).equity_curve.length
      = st.equity_curve.length + events.length := by
  induction events generalizing st with
  | nil => rfl
  | cons ie rest ih =>
    rw [runEvents, List.foldl_cons]
    have hstep := ih (loopStep df ocfg ccfg pcfg st ie.2 (draws ie.1))
    rw [runEvents] at hstep
    rw [hstep, loopStep_equity]
    simp [update_equity]
    omega

/-- Claim C3 (amended): the equity curve produced by the run has exactly
one point per bar carrying a non-zero Signal (recorded before order
processing, at that bar, from cash + shares * Close of the pre-event
ledger) plus one final point at the last bar of the series; bars with
Signal 0 contribute no point, see the counterexample. -/
theorem equity_curve_one_point_per_signal (df : List Bar) (ocfg : OrderConfig)
    (ccfg : CostConfig) (pcfg : PositionConfig) (draws : ℕ → Bool × ℚ)
    (h : df ≠ []) :
    (run_backtest df ocfg ccfg pcfg draws).equity_curve.length
      = (df.filter fun b => b.signal ≠ 0).length + 1
    ∧ ∀ st ev draw2, (loopStep df ocfg ccfg pcfg st ev draw2).equity_curve
        = update_equity pcfg.initial_capital st.equity_curve ev.ts (get_equity st.pm ev.close) := by
  constructor
  · rw [run_backtest]
    rcases hlast : df.getLast? with _ | lb
    · exact absurd (List.getLast?_eq_none_iff.mp hlast) h
    · dsimp only
      rw [update_equity]
      simp only [List.length_append, List.length_singleton]
      rw [runEvents_equity_length]
      simp [initState, List.enum_length]
  · intro st ev draw2
    exact loopStep_equity df ocfg ccfg pcfg st ev draw2

/-- Claim C3 counterexample: a two-bar series with no signals yields an
equity curve with a single (final) point, not one point per bar of the
series. -/
theorem equity_curve_not_per_bar :
    (run_backtest [⟨1,10,10,10,0⟩, ⟨2,10,10,10,0⟩] ⟨0⟩ ⟨CommissionType.percentage, 0, 0⟩
        ⟨PositionType.fixed_capital, 0, 1, 100⟩ (fun _ => (false, 0))).equity_curve.length = 1
    ∧ ([⟨1,10,10,10,0⟩, ⟨2,10,10,10,0⟩] : List Bar).length = 2
    ∧ (1 : ℕ) ≠ 2 := by
  refine ⟨rfl, rfl, by norm_num⟩

theorem equity_curve_one_point_per_signal_witness :
    (run_backtest [⟨1,10,10,10,1⟩, ⟨2,10,10,10,0⟩] ⟨0⟩ ⟨CommissionType.percentage, 0, 0⟩
        ⟨PositionType.fixed_shares, 5, 1, 1000⟩ (fun _ => (false, 0))).equity_curve.length
      = (([⟨1,10,10,10,1⟩, ⟨2,10,10,10,0⟩] : List Bar).filter fun b => b.signal ≠ 0).length + 1 :=
  (equity_curve_one_point_per_signal [⟨1,10,10,10,1⟩, ⟨2,10,10,10,0⟩] ⟨0⟩
    ⟨CommissionType.percentage, 0, 0⟩ ⟨PositionType.fixed_shares, 5, 1, 1000⟩
    (fun _ => (false, 0)) (List.cons_ne_nil _ _)).1

end FYP

namespace FYP

theorem tradeStats_no_closed (trades : List TradeRecord)
    (h : closedTrades trades = []) : tradeStats trades = (0, 0) := by
  simp [tradeStats, h]

theorem winners_nil_of_none (trades : List TradeRecord)
    (h : trades.any (fun t => t.net_pnl.isSome) = false) :
    winningTrades (closedTrades trades) = [] := by
  rw [List.any_eq_false] at h
  unfold winningTrades closedTrades
  rw [List.filter_eq_nil_iff]
  intro t ht
  have hn := h t (List.mem_of_mem_filter ht)
  cases hnp : t.net_pnl with
  | none => simp [hnp]
  | some v => exact absurd (by simp [hnp]) hn

theorem winners_nil_of_guard_false (trades : List TradeRecord)
    (h : ¬ (0 < trades.length ∧ trades.any (fun t => t.net_pnl.isSome) = true)) :
    winningTrades (closedTrades trades) = [] := by
  rcases trades with _ | ⟨t, ts⟩
  · rfl
  · refine winners_nil_of_none _ ?_
    have hne : ¬ ((t :: ts).any (fun x => x.net_pnl.isSome) = true) :=
      fun ha => h ⟨by simp, ha⟩
    exact Bool.not_eq_true _ |>.mp hne

theorem avgWin_zero_of_no_winners (closed : List TradeRecord)
    (h : winningTrades closed = []) : avgWin closed = 0 := by
  unfold avgWin
  rw [h]
  simp

/-- Claim C5 (amended): Sharpe, Sortino and win rate indeed default to 0
when their branch test fails (zero or undefined denominator, no closing
trades), and the profit factor is 0 when there are no winning closing
trades; but when there are no LOSING closing trades the code substitutes
the constant 1 for the undefined mean absolute loss, so the profit
factor equals the mean winning net PnL (not 0), see the
counterexample. -/
theorem metrics_ratio_defaults (F : RealFns) (init : ℚ)
    (curve : List EquityPoint) (trades : List TradeRecord) (m : Metrics)
    (hm : calculate_metrics F init curve trades = some m) :
    (¬ (0 < (pctChange (curve.map (fun e => e.returns))).length
        ∧ 0 < F.stdev (pctChange (curve.map (fun e => e.returns)))) → m.sharpe_ratio = 0)
    ∧ (¬ (0 < ((pctChange (curve.map (fun e => e.returns))).filter (fun r => r < 0)).length
        ∧ 0 < F.stdev ((pctChange (curve.map (fun e => e.returns))).filter (fun r => r < 0)))
        → m.sortino_ratio = 0)
    ∧ (closedTrades trades = [] → m.win_rate_pct = 0 ∧ m.profit_factor = 0)
    ∧ (winningTrades (closedTrades trades) = [] → m.profit_factor = 0)
    ∧ (losingTrades (closedTrades trades) = [] →
        m.profit_factor = avgWin (closedTrades trades)) := by
  rcases curve with _ | ⟨e0, rest⟩
  · exact absurd hm (by simp [calculate_metrics])
  · simp only [calculate_metrics, Option.some.injEq] at hm
    subst hm
    refine ⟨?_, ?_, ?_, ?_, ?_⟩
    · intro h
      dsimp only
      rw [if_neg h]
    · intro h
      dsimp only
      rw [if_neg h]
    · intro h
      have hts := tradeStats_no_closed trades h
      dsimp only
      rw [hts]
      exact ⟨rfl, rfl⟩
    · intro h
      have hw := avgWin_zero_of_no_winners _ h
      dsimp only
      unfold tradeStats
      by_cases h1 : 0 < trades.length ∧ trades.any (fun t => t.net_pnl.isSome) = true
      · rw [if_pos h1]
        dsimp only
        by_cases h2 : 0 < (closedTrades trades).length
        · rw [if_pos h2]
          dsimp only
          rw [hw]
          split_ifs <;> simp
        · rw [if_neg h2]
      · rw [if_neg h1]
    · intro h
      dsimp only
      unfold tradeStats
      by_cases h1 : 0 < trades.length ∧ trades.any (fun t => t.net_pnl.isSome) = true
      · rw [if_pos h1]
        dsimp only
        by_cases h2 : 0 < (closedTrades trades).length
        · rw [if_pos h2]
          dsimp only
          have hl : avgLoss (closedTrades trades) = 1 := by
            unfold avgLoss
            rw [h]
            simp
          rw [hl, if_pos (by norm_num : (0:ℚ) < 1), div_one]
        · rw [if_neg h2]
          have hc : closedTrades trades = [] := by
            rcases hcc : closedTrades trades with _ | _
            · rfl
            · exact absurd (hcc ▸ by simp) h2
          rw [avgWin_zero_of_no_winners _ (by rw [hc]; rfl)]
      · rw [if_neg h1]
        rw [avgWin_zero_of_no_winners _ (winners_nil_of_guard_false trades h1)]

/-- Claim C5 counterexample: one winning SELL trade and no losing
trades; the computed profit factor is 5 (the mean winning net PnL), not
0 as the claim requires. -/
theorem profit_factor_no_losses_not_zero :
    losingTrades (closedTrades
      [⟨0, 1, Side.sell, 10, 1, 10, 0, 0, 0, some 5, some 5, some 5⟩]) = []
    ∧ (calculate_metrics ⟨0, fun _ => 0, fun _ _ => 0, fun n => n⟩ 100
        [⟨1, 100, 0⟩] [⟨0, 1, Side.sell, 10, 1, 10, 0, 0, 0, some 5, some 5, some 5⟩]).map
        (fun m => m.profit_factor) = some 5
    ∧ (5:ℚ) ≠ 0 := by
  refine ⟨rfl, ?_, by norm_num⟩
  norm_num [calculate_metrics, tradeStats, closedTrades, winningTrades, losingTrades,
    avgWin, avgLoss, pdMean, pctChange, cummax, cummaxAux, listMin,
    List.filterMap_cons, List.filterMap_nil]

theorem metrics_ratio_defaults_witness :
    (⟨100, 100, 0, -100, 0, 0, 0, 0, 0, 0, 0⟩ : Metrics).win_rate_pct = 0
    ∧ (⟨100, 100, 0, -100, 0, 0, 0, 0, 0, 0, 0⟩ : Metrics).profit_factor = 0 :=
  (metrics_ratio_defaults ⟨0, fun _ => 0, fun _ _ => 0, fun n => n⟩ 100 [⟨1, 100, 0⟩] []
    ⟨100, 100, 0, -100, 0, 0, 0, 0, 0, 0, 0⟩
    (by norm_num [calculate_metrics, tradeStats, pctChange, cummax, cummaxAux, listMin])).2.2.1
    rfl

end FYP

namespace FYP.OM

theorem processBar_flat_inv (p : Params) (oh ol : ℚ) (st : SState) (b : OBar)
    (h : st.in_position = false → st = flat) :
    (processBar p oh ol st b).1.in_position = false → (processBar p oh ol st b).1 = flat := by
  unfold processBar
  split_ifs <;> intro hip <;> simp_all [flat]

theorem processBars_flat_inv (p : Params) (oh ol : ℚ) (bars : List OBar) (st : SState)
    (h : st.in_position = false → st = flat) :
    (processBars p oh ol st bars).1.in_position = false →
      (processBars p oh ol st bars).1 = flat := by
  induction bars generalizing st with
  | nil => exact h
  | cons b rest ih =>
    rw [processBars]
    exact ih _ (processBar_flat_inv p oh ol st b h)

theorem processBars_length (p : Params) (oh ol : ℚ) (bars : List OBar) (st : SState) :
    (processBars p oh ol st bars).2.length = bars.length := by
  induction bars generalizing st with
  | nil => rfl
  | cons b rest ih =>
    rw [processBars]
    simp [ih]

theorem processDayCore_length (p : Params) (st : SState) (day : List OBar) :
    (processDayCore p st day).2.length = day.length := by
  rw [processDayCore]
  simp [processBars_length]
  omega

theorem processDayCore_state (p : Params) (st : SState) (day : List OBar) :
    (processDayCore p st day).1
      = (processBars p (openingHigh (day.take p.opening_range_minutes))
          (openingLow (day.take p.opening_range_minutes)) st
          (day.drop p.opening_range_minutes)).1 := rfl

theorem processDay_flat (p : Params) (day : List OBar) :
    (processDay p flat day).1 = flat := by
  rw [processDay]
  split_ifs with hskip
  · rfl
  · show (if (processDayCore p flat day).1.in_position = true ∧ 0 < day.length
        then (flat, forceCloseSigs (processDayCore p flat day).2 (-1))
        else processDayCore p flat day).1 = flat
    by_cases hforce : (processDayCore p flat day).1.in_position = true ∧ 0 < day.length
    · rw [if_pos hforce]
    · rw [if_neg hforce]
      rcases hip : (processDayCore p flat day).1.in_position
      · rw [processDayCore_state] at hip ⊢
        exact processBars_flat_inv p _ _ _ flat (fun _ => rfl) hip
      · exfalso
        rcases Nat.eq_zero_or_pos day.length with hlen | hlen
        · rw [List.eq_nil_of_length_eq_zero hlen] at hip
          simp [processDayCore, processBars, flat] at hip
        · exact hforce ⟨hip, hlen⟩

theorem calcSignals_flat (p : Params) (days : List (List OBar)) :
    (calcSignals p flat days).1 = flat
    ∧ (calcSignals p flat days).2 = days.map (fun d => (processDay p flat d).2) := by
  induction days with
  | nil => exact ⟨rfl, rfl⟩
  | cons day rest ih =>
    rw [calcSignals]
    rw [processDay_flat]
    exact ⟨ih.1, by rw [List.map_cons]; exact congrArg _ ih.2⟩

theorem processDay_forced_close (p : Params) (st : SState) (day : List OBar)
    (st1 : SState) (sigs : List ℤ)
    (hcore : processDayCore p st day = (st1, sigs))
    (hskip : ¬ day.length < p.opening_range_minutes)
    (hip : st1.in_position = true)
    (hlast : sigs.getLast? = some 0) :
    (processDay p st day).2.getLast? = some (-1)
    ∧ (processDay p st day).1 = flat := by
  have hne : sigs ≠ [] := by
    intro hnil
    rw [hnil] at hlast
    exact Option.noConfusion hlast
  have hpos : 0 < day.length := by
    have := processDayCore_length p st day
    rw [hcore] at this
    dsimp only at this
    rcases sigs with _ | _
    · exact absurd rfl hne
    · rw [← this]
      simp
  rw [processDay]
  rw [if_neg hskip]
  show (if (processDayCore p st day).1.in_position = true ∧ 0 < day.length
      then (flat, forceCloseSigs (processDayCore p st day).2 (-1))
      else processDayCore p st day).2.getLast? = some (-1)
    ∧ (if (processDayCore p st day).1.in_position = true ∧ 0 < day.length
      then (flat, forceCloseSigs (processDayCore p st day).2 (-1))
      else processDayCore p st day).1 = flat
  rw [hcore]
  dsimp only
  rw [if_pos ⟨hip, hpos⟩]
  refine ⟨?_, rfl⟩
  dsimp only
  rw [forceCloseSigs, hlast]
  dsimp only
  rw [if_pos rfl]
  exact List.getLast?_concat _

end FYP.OM

namespace FYP.MB

theorem mb_processBar_flat_inv (p : Params) (st : SState) (b : MBar)
    (h : st.in_position = false → st = flat) :
    (processBar p st b).1.in_position = false → (processBar p st b).1 = flat := by
  unfold processBar
  rcases b.momentum with _ | mom
  · exact h
  · rcases b.time_ok with _ | _
    · exact h
    · dsimp only
      split_ifs <;> intro hip <;> simp_all [flat]

theorem mb_processBars_flat_inv (p : Params) (bars : List MBar) (st : SState)
    (h : st.in_position = false → st = flat) :
    (processBars p st bars).1.in_position = false →
      (processBars p st bars).1 = flat := by
  induction bars generalizing st with
  | nil => exact h
  | cons b rest ih =>
    rw [processBars]
    exact ih _ (mb_processBar_flat_inv p st b h)

theorem mb_processBars_length (p : Params) (bars : List MBar) (st : SState) :
    (processBars p st bars).2.length = bars.length := by
  induction bars generalizing st with
  | nil => rfl
  | cons b rest ih =>
    rw [processBars]
    simp [ih]

theorem mb_processDay_flat (p : Params) (day : List MBar) :
    (processDay p flat day).1 = flat := by
  rw [processDay]
  split_ifs with hskip
  · rfl
  · show (if (processBars p flat day).1.in_position = true ∧ 0 < day.length
        then (flat, FYP.OM.forceCloseSigs (processBars p flat day).2
          (if (processBars p flat day).1.position_type = 1 then -1 else 1))
        else processBars p flat day).1 = flat
    by_cases hforce : (processBars p flat day).1.in_position = true ∧ 0 < day.length
    · rw [if_pos hforce]
    · rw [if_neg hforce]
      rcases hip : (processBars p flat day).1.in_position
      · exact mb_processBars_flat_inv p day flat (fun _ => rfl) hip
      · exfalso
        rcases Nat.eq_zero_or_pos day.length with hlen | hlen
        · rw [List.eq_nil_of_length_eq_zero hlen] at hip
          simp [processBars, flat] at hip
        · exact hforce ⟨hip, hlen⟩

theorem mb_calcSignals_flat (p : Params) (days : List (List MBar)) :
    (calcSignals p flat days).1 = flat
    ∧ (calcSignals p flat days).2 = days.map (fun d => (processDay p flat d).2) := by
  induction days with
  | nil => exact ⟨rfl, rfl⟩
  | cons day rest ih =>
    rw [calcSignals]
    rw [mb_processDay_flat]
    exact ⟨ih.1, by rw [List.map_cons]; exact congrArg _ ih.2⟩

theorem mb_processDay_forced_close (p : Params) (st : SState) (day : List MBar)
    (st1 : SState) (sigs : List ℤ)
    (hcore : processBars p st day = (st1, sigs))
    (hskip : ¬ day.length < p.lookback_period + 5)
    (hip : st1.in_position = true)
    (hlast : sigs.getLast? = some 0) :
    (processDay p st day).2.getLast? = some (if st1.position_type = 1 then -1 else 1)
    ∧ (processDay p st day).1 = flat := by
  have hne : sigs ≠ [] := by
    intro hnil
    rw [hnil] at hlast
    exact Option.noConfusion hlast
  have hpos : 0 < day.length := by
    have := mb_processBars_length p day st
    rw [hcore] at this
    dsimp only at this
    rcases sigs with _ | _
    · exact absurd rfl hne
    · rw [← this]
      simp
  rw [processDay]
  rw [if_neg hskip]
  show (if (processBars p st day).1.in_position = true ∧ 0 < day.length
      then (flat, FYP.OM.forceCloseSigs (processBars p st day).2
        (if (processBars p st day).1.position_type = 1 then -1 else 1))
      else processBars p st day).2.getLast?
        = some (if st1.position_type = 1 then -1 else 1)
    ∧ (if (processBars p st day).1.in_position = true ∧ 0 < day.length
      then (flat, FYP.OM.forceCloseSigs (processBars p st day).2
        (if (processBars p st day).1.position_type = 1 then -1 else 1))
      else processBars p st day).1 = flat
  rw [hcore]
  dsimp only
  rw [if_pos ⟨hip, hpos⟩]
  refine ⟨?_, rfl⟩
  dsimp only
  rw [FYP.OM.forceCloseSigs, hlast]
  dsimp only
  rw [if_pos rfl]
  exact List.getLast?_concat _

end FYP.MB

namespace FYP

/-- Claim C2 (amended): for the two cited stateful intraday strategies,
(a) signals are computed day by day from the Flat state - the state
machine result of every processed session is Flat and skipped sessions
leave the incoming (Flat) state untouched, so no signal of day N+1
depends on state left over from day N; and (b) if the state machine is
still InPosition after the last bar of a session AND that bar's signal
is still 0, the opposite-direction closing signal is written at that
bar and the state resets.  When the last bar itself carries an entry
signal, that signal is kept and no closing signal is emitted (see the
counterexample), though the state still resets. -/
theorem session_reset_and_forced_close :
    (∀ (p : OM.Params) (days : List (List OM.OBar)),
        (OM.calcSignals p OM.flat days).1 = OM.flat
        ∧ (OM.calcSignals p OM.flat days).2
            = days.map (fun d => (OM.processDay p OM.flat d).2))
    ∧ (∀ (p : OM.Params) (st : OM.SState) (day : List OM.OBar)
        (st1 : OM.SState) (sigs : List ℤ),
        OM.processDayCore p st day = (st1, sigs) →
        ¬ day.length < p.opening_range_minutes →
        st1.in_position = true → sigs.getLast? = some 0 →
          (OM.processDay p st day).2.getLast? = some (-1)
          ∧ (OM.processDay p st day).1 = OM.flat)
    ∧ (∀ (p : MB.Params) (days : List (List MB.MBar)),
        (MB.calcSignals p MB.flat days).1 = MB.flat
        ∧ (MB.calcSignals p MB.flat days).2
            = days.map (fun d => (MB.processDay p MB.flat d).2))
    ∧ (∀ (p : MB.Params) (st : MB.SState) (day : List MB.MBar)
        (st1 : MB.SState) (sigs : List ℤ),
        MB.processBars p st day = (st1, sigs) →
        ¬ day.length < p.lookback_period + 5 →
        st1.in_position = true → sigs.getLast? = some 0 →
          (MB.processDay p st day).2.getLast?
              = some (if st1.position_type = 1 then -1 else 1)
          ∧ (MB.processDay p st day).1 = MB.flat) :=
  ⟨fun p days => OM.calcSignals_flat p days,
   fun p st day st1 sigs hc hs hi hl => OM.processDay_forced_close p st day st1 sigs hc hs hi hl,
   fun p days => MB.mb_calcSignals_flat p days,
   fun p st day st1 sigs hc hs hi hl => MB.mb_processDay_forced_close p st day st1 sigs hc hs hi hl⟩

theorem session_reset_and_forced_close_witness :
    (OM.processDay ⟨1, 1, 0, 1, 1⟩ OM.flat
        [⟨1, 10, 9, 10, 0, 10⟩, ⟨2, 11, 10, 11, 100, 1⟩, ⟨3, 11, 10, 11, 0, 100⟩]).2.getLast?
      = some (-1)
    ∧ (OM.processDay ⟨1, 1, 0, 1, 1⟩ OM.flat
        [⟨1, 10, 9, 10, 0, 10⟩, ⟨2, 11, 10, 11, 100, 1⟩, ⟨3, 11, 10, 11, 0, 100⟩]).1
      = OM.flat :=
  session_reset_and_forced_close.2.1 ⟨1, 1, 0, 1, 1⟩ OM.flat
    [⟨1, 10, 9, 10, 0, 10⟩, ⟨2, 11, 10, 11, 100, 1⟩, ⟨3, 11, 10, 11, 0, 100⟩]
    ⟨true, 11⟩ [0, 1, 0]
    (by norm_num [OM.processDayCore, OM.processBars, OM.processBar, OM.openingHigh,
      OM.openingLow, OM.flat])
    (by norm_num) rfl rfl

/-- Claim C2 counterexample: a session whose LAST bar triggers the entry
(volume surge and breakout at the last bar).  The state machine ends the
session InPosition, yet the emitted signal at the last bar stays 1 (the
entry), not the claimed closing signal -1; the state does reset to
Flat. -/
theorem forced_close_skipped_when_entry_at_last_bar :
    (OM.processDayCore ⟨1, 1, 0, 1, 1⟩ OM.flat
        [⟨1, 10, 9, 10, 0, 10⟩, ⟨2, 11, 10, 11, 100, 1⟩]).1.in_position = true
    ∧ (OM.processDay ⟨1, 1, 0, 1, 1⟩ OM.flat
        [⟨1, 10, 9, 10, 0, 10⟩, ⟨2, 11, 10, 11, 100, 1⟩]).2 = [0, 1]
    ∧ (OM.processDay ⟨1, 1, 0, 1, 1⟩ OM.flat
        [⟨1, 10, 9, 10, 0, 10⟩, ⟨2, 11, 10, 11, 100, 1⟩]).2.getLast? ≠ some (-1)
    ∧ (OM.processDay ⟨1, 1, 0, 1, 1⟩ OM.flat
        [⟨1, 10, 9, 10, 0, 10⟩, ⟨2, 11, 10, 11, 100, 1⟩]).1 = OM.flat := by
  refine ⟨?_, ?_, ?_, ?_⟩ <;>
    norm_num [OM.processDay, OM.processDayCore, OM.processBars, OM.processBar,
      OM.openingHigh, OM.openingLow, OM.forceCloseSigs, OM.flat]

end FYP

namespace FYP

theorem simulate_order_signal_type (df : List Bar) (cfg : OrderConfig) (t : ℕ)
    (sig n : ℤ) (fb : Bool) (u : ℚ) (f : Fill)
    (hf : simulate_order df cfg t sig n fb u = some f) :
    f.signal_type = if sig = 1 then Side.buy else Side.sell := by
  rcases hfil : df.filter (fun x => t < x.ts) with _ | ⟨b, l⟩
  · exfalso
    simp only [simulate_order, hfil] at hf
    exact Option.noConfusion hf
  · simp only [simulate_order, hfil, Option.some.injEq] at hf
    subst hf
    rfl

theorem update_position_buy_from_flat (pm : PositionManager) (f : Fill) (c : ℚ)
    (h0 : pm.shares = 0) (hb : f.signal_type = Side.buy) (hn : 0 < f.filled_shares) :
    (update_position pm f c).avg_cost = f.execution_price
    ∧ (update_position pm f c).shares = f.filled_shares := by
  simp only [update_position, hb, if_pos]
  constructor
  · rw [h0]
    rw [if_pos (by omega)]
    have hnq : ((f.filled_shares : ℚ)) ≠ 0 := by
      exact_mod_cast (by omega : f.filled_shares ≠ 0)
    push_cast
    field_simp
  · omega

theorem loopStep_buy_char (df : List Bar) (ocfg : OrderConfig) (ccfg : CostConfig)
    (pcfg : PositionConfig) (st : LoopState) (ev : Bar) (draw : Bool × ℚ)
    (f : Fill) (xb : Bar)
    (hsig : ev.signal = 1)
    (hsz : calculate_position_size pcfg st.pm ev.close ev.signal ≠ 0)
    (hsim : simulate_order df ocfg ev.ts ev.signal
      (calculate_position_size pcfg st.pm ev.close ev.signal) draw.1 draw.2 = some f)
    (hlb : lookupBar df f.execution_time = some xb) :
    loopStep df ocfg ccfg pcfg st ev draw =
      { pm := update_position st.pm f (calculate_total_cost ccfg f xb.bid xb.ask).commission
        tracker := record_trade st.tracker f (calculate_total_cost ccfg f xb.bid xb.ask) none
        equity_curve := update_equity pcfg.initial_capital st.equity_curve ev.ts
          (get_equity st.pm ev.close)
        entry_price := some f.execution_price } := by
  simp only [loopStep]
  rw [if_neg hsz, hsim]
  dsimp only
  rw [hlb]
  dsimp only
  rw [if_pos hsig]

theorem loopStep_sell_char (df : List Bar) (ocfg : OrderConfig) (ccfg : CostConfig)
    (pcfg : PositionConfig) (st : LoopState) (ev : Bar) (draw : Bool × ℚ)
    (f : Fill) (xb : Bar)
    (hsig : ev.signal ≠ 1)
    (hsz : st.pm.shares ≠ 0)
    (hsim : simulate_order df ocfg ev.ts ev.signal st.pm.shares draw.1 draw.2 = some f)
    (hlb : lookupBar df f.execution_time = some xb) :
    loopStep df ocfg ccfg pcfg st ev draw =
      { pm := update_position st.pm f (calculate_total_cost ccfg f xb.bid xb.ask).commission
        tracker := record_trade st.tracker f (calculate_total_cost ccfg f xb.bid xb.ask)
          st.entry_price
        equity_curve := update_equity pcfg.initial_capital st.equity_curve ev.ts
          (get_equity st.pm ev.close)
        entry_price := none } := by
  have hsize : calculate_position_size pcfg st.pm ev.close ev.signal = st.pm.shares := by
    unfold calculate_position_size
    rw [if_neg hsig]
  simp only [loopStep]
  rw [hsize, if_neg hsz, hsim]
  dsimp only
  rw [hlb]
  dsimp only
  rw [if_neg hsig]

theorem record_trade_sell_entry (t : PnLTracker) (f : Fill) (costs : Costs) (e : ℚ)
    (hs : f.signal_type = Side.sell) (he : e ≠ 0) :
    ((record_trade t f costs (some e)).trades.map (fun tr => tr.entry_price)).getLast?
      = some (some e) := by
  unfold record_trade
  rw [hs]
  dsimp only
  rw [if_pos he]
  simp

/-- Claim C4 (amended): the entry price written on a closing trade
record is the execution price of the most recent Buy fill, which equals
the ledger's volume-weighted average cost immediately before the Sell
exactly when that Sell closes a position built by a single Buy executed
from a flat ledger; in general (e.g. after a partial Sell fill followed
by another Buy) the recorded entry price differs from the ledger
average cost, see the counterexample. -/
theorem closing_entry_price_single_buy_from_flat (df : List Bar) (ocfg : OrderConfig)
    (ccfg : CostConfig) (pcfg : PositionConfig) (stA : LoopState) (evB evS : Bar)
    (dB dS : Bool × ℚ) (fB fS : Fill) (xbB xbS : Bar)
    (h0 : stA.pm.shares = 0)
    (hBsig : evB.signal = 1)
    (hSsig : evS.signal ≠ 1)
    (hsz : calculate_position_size pcfg stA.pm evB.close evB.signal ≠ 0)
    (hfB : simulate_order df ocfg evB.ts evB.signal
        (calculate_position_size pcfg stA.pm evB.close evB.signal) dB.1 dB.2 = some fB)
    (hlbB : lookupBar df fB.execution_time = some xbB)
    (hfill : 0 < fB.filled_shares)
    (hpz : fB.execution_price ≠ 0)
    (hfS : simulate_order df ocfg evS.ts evS.signal
        (loopStep df ocfg ccfg pcfg stA evB dB).pm.shares dS.1 dS.2 = some fS)
    (hlbS : lookupBar df fS.execution_time = some xbS) :
    (loopStep df ocfg ccfg pcfg stA evB dB).pm.avg_cost = fB.execution_price
    ∧ (List.map (fun tr => tr.entry_price)
        (loopStep df ocfg ccfg pcfg (loopStep df ocfg ccfg pcfg stA evB dB) evS dS).tracker.trades).getLast?
      = some (some ((loopStep df ocfg ccfg pcfg stA evB dB).pm.avg_cost)) := by
  have hside : fB.signal_type = Side.buy := by
    have := simulate_order_signal_type df ocfg evB.ts evB.signal _ dB.1 dB.2 fB hfB
    rwa [if_pos hBsig] at this
  have hstep1 := loopStep_buy_char df ocfg ccfg pcfg stA evB dB fB xbB hBsig hsz hfB hlbB
  have hupd := update_position_buy_from_flat stA.pm fB
    (calculate_total_cost ccfg fB xbB.bid xbB.ask).commission h0 hside hfill
  have havg : (loopStep df ocfg ccfg pcfg stA evB dB).pm.avg_cost = fB.execution_price := by
    rw [hstep1]
    exact hupd.1
  refine ⟨havg, ?_⟩
  have hshares : (loopStep df ocfg ccfg pcfg stA evB dB).pm.shares = fB.filled_shares := by
    rw [hstep1]
    exact hupd.2
  have hsz2 : (loopStep df ocfg ccfg pcfg stA evB dB).pm.shares ≠ 0 := by
    rw [hshares]
    omega
  have hSside : fS.signal_type = Side.sell := by
    have := simulate_order_signal_type df ocfg evS.ts evS.signal _ dS.1 dS.2 fS hfS
    rwa [if_neg hSsig] at this
  have hstep2 := loopStep_sell_char df ocfg ccfg pcfg
    (loopStep df ocfg ccfg pcfg stA evB dB) evS dS fS xbS hSsig hsz2 hfS hlbS
  have hentry : (loopStep df ocfg ccfg pcfg stA evB dB).entry_price
      = some fB.execution_price := by
    rw [hstep1]
  rw [hstep2]
  dsimp only
  rw [hentry, havg]
  exact record_trade_sell_entry _ fS _ fB.execution_price hSside hpz

end FYP

namespace FYP

theorem sell_ne_buy : Side.sell ≠ Side.buy := fun h => nomatch h

theorem closing_entry_price_single_buy_from_flat_witness :
    (loopStep [⟨1,10,10,10,1⟩, ⟨2,10,10,10,0⟩, ⟨3,12,12,12,-1⟩, ⟨4,12,12,12,0⟩] ⟨0⟩
        ⟨CommissionType.percentage, 0, 0⟩ ⟨PositionType.fixed_shares, 100, 1, 1000000⟩
        (initState ⟨PositionType.fixed_shares, 100, 1, 1000000⟩)
        ⟨1,10,10,10,1⟩ (false, 0)).pm.avg_cost
      = (⟨1, 2, Side.buy, 10, 10, 0, 100, 100, 1000⟩ : Fill).execution_price
    ∧ (List.map (fun tr => tr.entry_price)
        (loopStep [⟨1,10,10,10,1⟩, ⟨2,10,10,10,0⟩, ⟨3,12,12,12,-1⟩, ⟨4,12,12,12,0⟩] ⟨0⟩
          ⟨CommissionType.percentage, 0, 0⟩ ⟨PositionType.fixed_shares, 100, 1, 1000000⟩
          (loopStep [⟨1,10,10,10,1⟩, ⟨2,10,10,10,0⟩, ⟨3,12,12,12,-1⟩, ⟨4,12,12,12,0⟩] ⟨0⟩
            ⟨CommissionType.percentage, 0, 0⟩ ⟨PositionType.fixed_shares, 100, 1, 1000000⟩
            (initState ⟨PositionType.fixed_shares, 100, 1, 1000000⟩)
            ⟨1,10,10,10,1⟩ (false, 0))
          ⟨3,12,12,12,-1⟩ (false, 0)).tracker.trades).getLast?
      = some (some ((loopStep [⟨1,10,10,10,1⟩, ⟨2,10,10,10,0⟩, ⟨3,12,12,12,-1⟩, ⟨4,12,12,12,0⟩] ⟨0⟩
          ⟨CommissionType.percentage, 0, 0⟩ ⟨PositionType.fixed_shares, 100, 1, 1000000⟩
          (initState ⟨PositionType.fixed_shares, 100, 1, 1000000⟩)
          ⟨1,10,10,10,1⟩ (false, 0)).pm.avg_cost)) :=
  closing_entry_price_single_buy_from_flat
    [⟨1,10,10,10,1⟩, ⟨2,10,10,10,0⟩, ⟨3,12,12,12,-1⟩, ⟨4,12,12,12,0⟩] ⟨0⟩
    ⟨CommissionType.percentage, 0, 0⟩ ⟨PositionType.fixed_shares, 100, 1, 1000000⟩
    (initState ⟨PositionType.fixed_shares, 100, 1, 1000000⟩)
    ⟨1,10,10,10,1⟩ ⟨3,12,12,12,-1⟩ (false, 0) (false, 0)
    ⟨1, 2, Side.buy, 10, 10, 0, 100, 100, 1000⟩
    ⟨3, 4, Side.sell, 12, 12, 0, 100, 100, 1200⟩
    ⟨2,10,10,10,0⟩ ⟨4,12,12,12,0⟩
    rfl rfl (by norm_num)
    (by norm_num [calculate_position_size, initState, initPosition])
    (by norm_num [simulate_order, calculate_position_size, initState, initPosition])
    (by norm_num [lookupBar, List.find?])
    (by norm_num) (by norm_num)
    (by norm_num [simulate_order, loopStep, calculate_position_size, initState, initPosition,
      update_position, update_equity, get_equity, lookupBar, List.find?,
      calculate_total_cost, calculate_commission, record_trade, sell_ne_buy])
    (by norm_num [lookupBar, List.find?])

/-- Claim C4 counterexample: a run - Buy 100 at 10, partial Sell fill of
50 at 12, Buy 100 at 20, full Sell 150 at 25 - whose final closing trade
records entry price 20 (the execution price of the most recent Buy),
while the ledger average cost just before that Sell is 50/3
(= (10*50 + 20*100)/150). -/
theorem closing_entry_price_not_avg_cost :
    (List.map (fun tr => tr.entry_price)
      (run_backtest
        [⟨1,10,10,10,1⟩, ⟨2,10,10,10,0⟩, ⟨3,12,12,12,-1⟩, ⟨4,12,12,12,0⟩,
         ⟨5,20,20,20,1⟩, ⟨6,20,20,20,0⟩, ⟨7,25,25,25,-1⟩, ⟨8,25,25,25,0⟩] ⟨0⟩
        ⟨CommissionType.percentage, 0, 0⟩ ⟨PositionType.fixed_shares, 100, 1, 1000000⟩
        (fun i => if i = 1 then (true, 1/2) else (false, 0))).tracker.trades).getLast?
      = some (some 20)
    ∧ (runEvents
        [⟨1,10,10,10,1⟩, ⟨2,10,10,10,0⟩, ⟨3,12,12,12,-1⟩, ⟨4,12,12,12,0⟩,
         ⟨5,20,20,20,1⟩, ⟨6,20,20,20,0⟩, ⟨7,25,25,25,-1⟩, ⟨8,25,25,25,0⟩] ⟨0⟩
        ⟨CommissionType.percentage, 0, 0⟩ ⟨PositionType.fixed_shares, 100, 1, 1000000⟩
        (fun i => if i = 1 then (true, 1/2) else (false, 0))
        (initState ⟨PositionType.fixed_shares, 100, 1, 1000000⟩)
        ((([⟨1,10,10,10,1⟩, ⟨2,10,10,10,0⟩, ⟨3,12,12,12,-1⟩, ⟨4,12,12,12,0⟩,
            ⟨5,20,20,20,1⟩, ⟨6,20,20,20,0⟩, ⟨7,25,25,25,-1⟩, ⟨8,25,25,25,0⟩] : List Bar).filter
            (fun b => b.signal ≠ 0)).enum.take 3)).pm.avg_cost = 50/3
    ∧ ((50:ℚ)/3 ≠ 20) := by
  refine ⟨?_, ?_, by norm_num⟩
  · norm_num [run_backtest, runEvents, loopStep, simulate_order, calculate_position_size,
      update_position, get_equity, update_equity, lookupBar, calculate_total_cost,
      calculate_commission, record_trade, pyInt, initState, initPosition, initTracker,
      List.foldl, List.filter, List.enum, List.find?, sell_ne_buy]
  · norm_num [runEvents, loopStep, simulate_order, calculate_position_size,
      update_position, get_equity, update_equity, lookupBar, calculate_total_cost,
      calculate_commission, record_trade, pyInt, initState, initPosition, initTracker,
      List.foldl, List.filter, List.enum, List.find?, List.take, sell_ne_buy]

end FYP
